import Mathlib

/-!
Shallow embedding of the `fourohfourfound` redirect server (the `Redirector`
version: the `main` package with `sync.RWMutex`, `/_config` handling and
`json:"redirections"`-tagged struct field).

The mutable `map[string]string` of redirections is modelled as a `GoMap`:
either the nil map (which the `Redirections` field holds after decoding a
JSON `null` into it) or an allocated map represented as an association list
with unique-key ("map") semantics: `find?` returns the value at the first
occurrence of a key, `mapPut` overwrites in place, `mapDelete` removes the
entry.  The nil map reads like an empty map and deletes as a no-op, but an
assignment to it panics — `putOp` returns `none` and the handler produces
`Response.panicked`.  Locking is not modelled: every handler runs its whole
body under the table lock, so each request is one atomic state transition
`Redirector → Redirector × Response`.

JSON documents are modelled at the abstract-syntax level (`Json`); a request
body that is not syntactically valid JSON is `Body.malformed`, since Go's
`encoding/json.Unmarshal` validates the whole input with `checkValid` before
any decoding happens.  `unmarshalRedirector` models `json.Unmarshal(config,
redir)` for this specific target type, including the behaviours that matter
here: decoding merges into the existing non-nil map (allocating a fresh one
when the field is nil), unknown object fields are skipped, field names match
ASCII case-insensitively, `null` sets a map field to the nil map and is a
silent no-op for string and struct targets, and type mismatches are saved as
errors while decoding continues (so a failing document can still modify the
map, and a mismatched map element is stored as the zero value "").  On the
encode side, `json.Marshal` emits a JSON object for an allocated map but
JSON `null` for the nil map.
-/

set_option autoImplicit false

/-- Abstract syntax of a JSON document (what `encoding/json` sees after the
syntax check).  Object member order is kept because Go decodes members in
document order. -/
inductive Json where
  | null
  | bool (b : Bool)
  | num (n : Int)
  | str (s : String)
  | arr (elems : List Json)
  | obj (members : List (String × Json))

/-- A request body / config file content as seen by `LoadConfig`: either not
syntactically valid JSON, or a parsed document. -/
inductive Body where
  | malformed
  | wellFormed (doc : Json)

/-- HTTP responses the server can produce.  `http.Error(w, msg, status)` is
`httpError msg status`; `http.NotFound` is `notFound`; `http.Redirect` is
`redirect`; a handler that only writes `body` (possibly nothing) is `ok body`;
`GetConfig`'s JSON output is `okJson` (its `MarshalIndent` error branch is
unreachable for this struct, so it is not modelled); a handler that panics —
the nil-map assignment in `Put` — is `panicked` (net/http recovers the panic
and aborts the response). -/
inductive Response where
  | redirect (location : String) (code : Nat)
  | notFound
  | ok (body : String)
  | okJson (config : Json)
  | httpError (msg : String) (status : Nat)
  | panicked

/-- The value of a Go `map[string]string` variable: the nil map, or an
allocated (possibly empty) map.  The distinction is observable: the nil map
reads like an empty map and deletes as a no-op, but panics on assignment,
decodes by allocation, and marshals as JSON `null`. -/
inductive GoMap where
  | nilMap
  | alloc (entries : List (String × String))

/-- The entries a map variable holds (the nil map holds none). -/
def GoMap.entriesD : GoMap → List (String × String)
  | .nilMap => []
  | .alloc m => m

/-- The `Redirector` struct: redirect `code` and the `Redirections` map
(field tag `json:"redirections"`).  The `sync.RWMutex` is not part of the
state. -/
structure Redirector where
  code : Nat
  Redirections : GoMap

/-- Model of `NewRedirector`: code `http.StatusFound` (302), freshly made
(allocated, empty) map. -/
def NewRedirector : Redirector := { code := 302, Redirections := GoMap.alloc [] }

/-- Go map read `m[k]` on an allocated map: value at the (unique) occurrence
of `k`. -/
def find? (k : String) : List (String × String) → Option String
  | [] => none
  | (k₀, v₀) :: rest => if k₀ == k then some v₀ else find? k rest

/-- Go map write `m[k] = v` on an allocated map: overwrite in place, or
append a new entry. -/
def mapPut (k v : String) : List (String × String) → List (String × String)
  | [] => [(k, v)]
  | (k₀, v₀) :: rest => if k₀ == k then (k, v) :: rest else (k₀, v₀) :: mapPut k v rest

/-- Go `delete(m, k)` on an allocated map: remove the (unique) entry for
`k`, no-op if absent. -/
def mapDelete (k : String) : List (String × String) → List (String × String)
  | [] => []
  | (k₀, v₀) :: rest => if k₀ == k then rest else (k₀, v₀) :: mapDelete k rest

/-- Go map read `m[k]` on a map variable: a read on the nil map behaves like
a read on an empty map (no panic, zero value / not-ok). -/
def goMapFind? (k : String) (g : GoMap) : Option String :=
  find? k g.entriesD

/-- Go `delete(m, k)` on a map variable: a delete on the nil map is a
no-op. -/
def goMapDelete (k : String) : GoMap → GoMap
  | .nilMap => .nilMap
  | .alloc m => .alloc (mapDelete k m)

/-- ASCII case folding of one character, as `encoding/json`'s field-name
folding does for ASCII letters. -/
def foldChar (c : Char) : Char :=
  if 'A' ≤ c ∧ c ≤ 'Z' then Char.ofNat (c.toNat + 32) else c

/-- Whether a JSON object member name selects the `Redirections` struct field:
`encoding/json` matches the tag name `redirections` exactly or
case-insensitively. -/
def fieldMatches (k : String) : Bool :=
  k.data.map foldChar == "redirections".data

/-- Decoding one JSON value into a `string` target (a map element).
Returns the value stored (Go stores the element even when its decoding
failed, leaving the zero value `""`) and whether a type error was saved:
strings decode to themselves, `null` is a silent no-op (zero value kept,
no error), anything else saves an `UnmarshalTypeError`. -/
def decodeStr (j : Json) : String × Bool :=
  match j with
  | .str s => (s, false)
  | .null => ("", false)
  | _ => ("", true)

/-- Decoding one member of the JSON object for the map field: the element is
stored under the member's name (even when its decoding saved a type error),
and the error flag accumulates. -/
def decodeMember (acc : List (String × String) × Bool) (kv : String × Json) :
    List (String × String) × Bool :=
  (mapPut kv.1 (decodeStr kv.2).1 acc.1, acc.2 || (decodeStr kv.2).2)

/-- Decoding one JSON value into the `map[string]string` field, given the
field's current value `g`.  An object merges member by member in document
order (`Unmarshal` reuses a non-nil map, keeping existing entries, and
allocates a fresh map when the field is nil — both cases start from
`g.entriesD` and the result is allocated); `null` sets the field to the nil
map (dropping all entries) without error; any other value saves an
`UnmarshalTypeError` and leaves the field untouched. -/
def decodeMapValue (j : Json) (g : GoMap) : GoMap × Bool :=
  match j with
  | .null => (GoMap.nilMap, false)
  | .obj members =>
      (GoMap.alloc (members.foldl decodeMember (g.entriesD, false)).1,
       (members.foldl decodeMember (g.entriesD, false)).2)
  | _ => (g, true)

/-- Decoding one member of a top-level JSON object into the struct: a member
whose name matches the `redirections` field decodes into the map, every other
member is skipped (Go ignores unknown fields). -/
def unmarshalMember (acc : Redirector × Bool) (kv : String × Json) :
    Redirector × Bool :=
  if fieldMatches kv.1 then
    let dec := decodeMapValue kv.2 acc.1.Redirections
    ({ acc.1 with Redirections := dec.1 }, acc.2 || dec.2)
  else acc

/-- Model of `json.Unmarshal(config, redir)` for `*Redirector`.  A top-level
object is decoded member by member; top-level `null` is a silent no-op; any
other top-level value saves a type error and changes nothing.  The unexported
`code` field is invisible to `encoding/json` and is never touched.  The
`Bool` is whether `Unmarshal` returns a non-nil error. -/
def unmarshalRedirector (j : Json) (r : Redirector) : Redirector × Bool :=
  match j with
  | .null => (r, false)
  | .obj members => members.foldl unmarshalMember (r, false)
  | _ => (r, true)

/-- Model of `Redirector.LoadConfig`: `json.Unmarshal` under the write lock.
A syntactically malformed body fails before any decoding (Go's `checkValid`
runs first), leaving the table untouched. -/
def loadConfig (body : Body) (r : Redirector) : Redirector × Bool :=
  match body with
  | .malformed => (r, true)
  | .wellFormed j => unmarshalRedirector j r

/-- Keys of the map in Go's marshalling order: every key once, sorted
(`encoding/json` sorts map keys when marshalling). -/
def sortedKeys (m : List (String × String)) : List String :=
  ((m.map Prod.fst).dedup).mergeSort (fun a b => decide (a ≤ b))

/-- The JSON value `encoding/json` emits for the `Redirections` map: for an
allocated map, an object with one string member per key, keys sorted; for
the nil map, JSON `null`. -/
def marshalRedirections : GoMap → Json
  | .nilMap => Json.null
  | .alloc m =>
      Json.obj ((sortedKeys m).map (fun k => (k, Json.str ((find? k m).getD ""))))

/-- Model of `json.MarshalIndent(redir, ...)` in `GetConfig`: the one exported,
tagged field is emitted, the unexported `code` field is not. -/
def marshalConfig (r : Redirector) : Json :=
  Json.obj [("redirections", marshalRedirections r.Redirections)]

/-- Model of `req.Header.Get("X-Real-Ip")`: the header value, or `""` when the
header is absent (Go cannot distinguish an absent header from a present empty
one through `Get`). -/
def headerGet : Option String → String
  | some v => v
  | none => ""

/-- Model of `realAddr`: the `X-Real-Ip` value when it is non-empty, else the
transport remote address. -/
def realAddr (xRealIp : Option String) (remoteAddr : String) : String :=
  if headerGet xRealIp != "" then headerGet xRealIp else remoteAddr

/-- Model of `strings.SplitN(s, ":", 2)[0]`: the part of `s` before the first
`:` (all of `s` when there is none). -/
def hostPart (s : String) : String :=
  { data := s.data.takeWhile (fun c => c != ':') }

/-- The address test inside `onlyLocal`: the part before the first `:` must be
`localhost` or `127.0.0.1`. -/
def isLocalAddr (addr : String) : Bool :=
  hostPart addr == "localhost" || hostPart addr == "127.0.0.1"

/-- Whether `onlyLocal` lets a request with these address data through. -/
def isLocalCaller (xRealIp : Option String) (remoteAddr : String) : Bool :=
  isLocalAddr (realAddr xRealIp remoteAddr)

/-- A request to the data-path handler (`http.Handle("/", redirector)`): the
raw body is the destination text a PUT stores. -/
structure Request where
  method : String
  path : String
  xRealIp : Option String
  remoteAddr : String
  body : String

/-- A request to the `/_config` handler: its body is consumed as JSON. -/
structure ConfigRequest where
  method : String
  xRealIp : Option String
  remoteAddr : String
  body : Body

/-- Model of `Redirector.Get`: redirect with the table's code on a hit, 404
on a miss (a read on the nil map simply misses). -/
def getOp (path : String) (r : Redirector) : Response :=
  match goMapFind? path r.Redirections with
  | some destination => Response.redirect destination r.code
  | none => Response.notFound

/-- Model of `Redirector.Put`: store the request body as the destination for
the request path.  The assignment `redir.Redirections[req.URL.Path] =
destination` panics on the nil map ("assignment to entry in nil map") and
stores nothing — modelled as `none`. -/
def putOp (path destination : String) (r : Redirector) : Option Redirector :=
  match r.Redirections with
  | .nilMap => none
  | .alloc m =>
      some { r with Redirections := GoMap.alloc (mapPut path destination m) }

/-- Model of `Redirector.Delete`: drop the entry for the request path
(a delete on the nil map is a no-op). -/
def deleteOp (path : String) (r : Redirector) : Redirector :=
  { r with Redirections := goMapDelete path r.Redirections }

/-- Model of `Redirector.DeleteConfig`: replace the map by a fresh empty
(allocated) one. -/
def clearOp (r : Redirector) : Redirector :=
  { r with Redirections := GoMap.alloc [] }

/-- Model of `Redirector.ServeHTTP` (data paths): GET is public; PUT and
DELETE are wrapped in `onlyLocal`; any other method is 405.  A PUT at the
nil-map state panics inside the handler, changing nothing. -/
def serveHTTP (req : Request) (r : Redirector) : Redirector × Response :=
  if req.method == "GET" then
    (r, getOp req.path r)
  else if req.method == "PUT" then
    if isLocalCaller req.xRealIp req.remoteAddr then
      match putOp req.path req.body r with
      | some updated => (updated, Response.ok "")
      | none => (r, Response.panicked)
    else (r, Response.httpError "Unauthorized" 401)
  else if req.method == "DELETE" then
    if isLocalCaller req.xRealIp req.remoteAddr then
      (deleteOp req.path r, Response.ok "")
    else (r, Response.httpError "Unauthorized" 401)
  else (r, Response.httpError "Method not allowed" 405)

/-- Model of `Redirector.SetConfig`: run `LoadConfig` on the body; 500 on
error (the table keeps whatever `LoadConfig` left behind), confirmation text
on success. -/
def setConfig (body : Body) (r : Redirector) : Redirector × Response :=
  let res := loadConfig body r
  if res.2 then (res.1, Response.httpError "Error decoding JSON config" 500)
  else (res.1, Response.ok "Configuration successfully loaded.\n")

/-- Model of the closure returned by `Redirector.ConfigHandler`: the whole
method switch, including its 405 default, runs inside `onlyLocal`. -/
def configHandler (req : ConfigRequest) (r : Redirector) : Redirector × Response :=
  if isLocalCaller req.xRealIp req.remoteAddr then
    if req.method == "GET" then
      (r, Response.okJson (marshalConfig r))
    else if req.method == "PUT" then
      setConfig req.body r
    else if req.method == "DELETE" then
      (clearOp r, Response.ok "")
    else (r, Response.httpError "Method not allowed" 405)
  else (r, Response.httpError "Unauthorized" 401)

/-! Basic lemmas about the association-list model of `map[string]string`. -/

theorem find?_mapPut_self (k v : String) (m : List (String × String)) :
    find? k (mapPut k v m) = some v := by
  induction m with
  | nil => simp [mapPut, find?]
  | cons hd tl ih =>
    obtain ⟨k₀, v₀⟩ := hd
    by_cases h : k₀ = k <;> simp [mapPut, find?, h, ih]

theorem find?_mapPut_ne (k k' v : String) (m : List (String × String))
    (h : k' ≠ k) : find? k (mapPut k' v m) = find? k m := by
  have h' : k ≠ k' := fun e => h e.symm
  induction m with
  | nil => simp [mapPut, find?, h]
  | cons hd tl ih =>
    obtain ⟨k₀, v₀⟩ := hd
    by_cases h₀ : k₀ = k'
    · subst h₀; simp [mapPut, find?, h]
    · by_cases h₁ : k₀ = k <;> simp [mapPut, find?, h₀, h₁, h', ih]

theorem find?_eq_none_iff (k : String) (m : List (String × String)) :
    find? k m = none ↔ k ∉ m.map Prod.fst := by
  induction m with
  | nil => simp [find?]
  | cons hd tl ih =>
    obtain ⟨k₀, v₀⟩ := hd
    by_cases h : k₀ = k
    · subst h; simp [find?]
    · have hcond : (k₀ == k) = false := by simp [h]
      simp only [find?, hcond, Bool.false_eq_true, if_false, List.map_cons,
        List.mem_cons]
      rw [ih]
      constructor
      · intro hn
        rintro (rfl | hm)
        · exact h rfl
        · exact hn hm
      · intro hno hm
        exact hno (Or.inr hm)

theorem mapDelete_eq_self (k : String) (m : List (String × String))
    (h : find? k m = none) : mapDelete k m = m := by
  induction m with
  | nil => rfl
  | cons hd tl ih =>
    obtain ⟨k₀, v₀⟩ := hd
    by_cases h₀ : k₀ = k
    · simp [find?, h₀] at h
    · simp only [find?] at h
      rw [if_neg (by simp [h₀])] at h
      simp [mapDelete, h₀, ih h]

theorem keys_mapPut_of_mem (k v : String) (m : List (String × String))
    (h : k ∈ m.map Prod.fst) : (mapPut k v m).map Prod.fst = m.map Prod.fst := by
  induction m with
  | nil => simp at h
  | cons hd tl ih =>
    obtain ⟨k₀, v₀⟩ := hd
    by_cases h₀ : k₀ = k
    · subst h₀; simp [mapPut]
    · have hmem : k ∈ tl.map Prod.fst := by
        rcases List.mem_cons.mp h with h₁ | h₁
        · exact absurd h₁.symm h₀
        · exact h₁
      have hcond : (k₀ == k) = false := by simp [h₀]
      simp only [mapPut, hcond, Bool.false_eq_true, if_false, List.map_cons,
        ih hmem]

theorem keys_mapPut_of_not_mem (k v : String) (m : List (String × String))
    (h : k ∉ m.map Prod.fst) :
    (mapPut k v m).map Prod.fst = m.map Prod.fst ++ [k] := by
  induction m with
  | nil => simp [mapPut]
  | cons hd tl ih =>
    obtain ⟨k₀, v₀⟩ := hd
    simp only [List.map_cons, List.mem_cons] at h
    push_neg at h
    have hne : ¬k₀ = k := fun e => h.1 e.symm
    have hcond : (k₀ == k) = false := by simp [hne]
    simp only [mapPut, hcond, Bool.false_eq_true, if_false, List.map_cons,
      ih h.2, List.cons_append]

theorem keys_nodup_mapPut (k v : String) (m : List (String × String))
    (h : (m.map Prod.fst).Nodup) : ((mapPut k v m).map Prod.fst).Nodup := by
  by_cases hmem : k ∈ m.map Prod.fst
  · rw [keys_mapPut_of_mem k v m hmem]; exact h
  · rw [keys_mapPut_of_not_mem k v m hmem]
    rw [List.nodup_append]
    exact ⟨h, List.nodup_singleton k, by simpa using fun hk => hmem hk⟩

theorem find?_mapDelete_self (k : String) (m : List (String × String))
    (h : (m.map Prod.fst).Nodup) : find? k (mapDelete k m) = none := by
  induction m with
  | nil => rfl
  | cons hd tl ih =>
    obtain ⟨k₀, v₀⟩ := hd
    simp only [List.map_cons, List.nodup_cons] at h
    by_cases h₀ : k₀ = k
    · subst h₀
      simp only [mapDelete, beq_self_eq_true, if_true]
      exact (find?_eq_none_iff k₀ tl).mpr h.1
    · have hcond : (k₀ == k) = false := by simp [h₀]
      simp only [mapDelete, hcond, Bool.false_eq_true, if_false, find?]
      exact ih h.2

/-! Lemmas about decoding a `redirections` object whose values are all
strings (the well-formed configuration shape). -/

/-- The JSON object members for a list of source/destination pairs. -/
def strMembers (pairs : List (String × String)) : List (String × Json) :=
  pairs.map (fun p => (p.1, Json.str p.2))

/-- Merging a list of pairs into a map, in order (what decoding a well-formed
`redirections` object does to the map field). -/
def mergePairs (pairs : List (String × String)) (m : List (String × String)) :
    List (String × String) :=
  pairs.foldl (fun acc p => mapPut p.1 p.2 acc) m

theorem foldl_decodeMember_str (pairs : List (String × String)) :
    ∀ m : List (String × String),
      (strMembers pairs).foldl decodeMember (m, false)
        = (mergePairs pairs m, false) := by
  induction pairs with
  | nil => intro m; rfl
  | cons hd tl ih =>
    intro m
    show (strMembers tl).foldl decodeMember (decodeMember (m, false) (hd.1, Json.str hd.2)) = _
    have hstep : decodeMember (m, false) (hd.1, Json.str hd.2)
        = (mapPut hd.1 hd.2 m, false) := rfl
    rw [hstep, ih]
    rfl

theorem find?_mergePairs_not_mem (pairs : List (String × String)) :
    ∀ (m : List (String × String)) (k : String),
      k ∉ pairs.map Prod.fst →
      find? k (mergePairs pairs m) = find? k m := by
  induction pairs with
  | nil => intro m k _; rfl
  | cons hd tl ih =>
    intro m k hk
    simp only [List.map_cons, List.mem_cons] at hk
    push_neg at hk
    show find? k (mergePairs tl (mapPut hd.1 hd.2 m)) = find? k m
    rw [ih (mapPut hd.1 hd.2 m) k hk.2,
      find?_mapPut_ne k hd.1 hd.2 m (fun e => hk.1 e.symm)]

theorem find?_mergePairs_mem (pairs : List (String × String)) :
    ∀ (m : List (String × String)) (k v : String),
      (pairs.map Prod.fst).Nodup → (k, v) ∈ pairs →
      find? k (mergePairs pairs m) = some v := by
  induction pairs with
  | nil => intro m k v _ hmem; simp at hmem
  | cons hd tl ih =>
    intro m k v hnd hmem
    obtain ⟨k₁, v₁⟩ := hd
    simp only [List.map_cons, List.nodup_cons] at hnd
    rcases List.mem_cons.mp hmem with heq | htl
    · have hk : k = k₁ := congrArg Prod.fst heq
      have hv : v = v₁ := congrArg Prod.snd heq
      subst hk
      subst hv
      show find? k (mergePairs tl (mapPut k v m)) = some v
      rw [find?_mergePairs_not_mem tl (mapPut k v m) k hnd.1]
      exact find?_mapPut_self k v m
    · exact ih (mapPut k₁ v₁ m) k v hnd.2 htl

/-! Lemmas reducing `loadConfig` on documents of the configuration shape, and
frame lemmas for the unexported `code` field. -/

theorem fieldMatches_redirections : fieldMatches "redirections" = true := by
  decide

theorem loadConfig_strDoc (pairs : List (String × String)) (r : Redirector) :
    loadConfig (Body.wellFormed (Json.obj
      [("redirections", Json.obj (strMembers pairs))])) r
      = ({ r with Redirections :=
            GoMap.alloc (mergePairs pairs r.Redirections.entriesD) }, false) := by
  show unmarshalMember (r, false) ("redirections", Json.obj (strMembers pairs)) = _
  simp only [unmarshalMember, fieldMatches_redirections, if_true, decodeMapValue,
    foldl_decodeMember_str, Bool.or_false]

theorem foldl_unmarshalMember_code (members : List (String × Json)) :
    ∀ acc : Redirector × Bool,
      ((members.foldl unmarshalMember acc).1).code = acc.1.code := by
  induction members with
  | nil => intro acc; rfl
  | cons hd tl ih =>
    intro acc
    show ((tl.foldl unmarshalMember (unmarshalMember acc hd)).1).code = acc.1.code
    rw [ih (unmarshalMember acc hd)]
    cases hf : fieldMatches hd.1 <;> simp [unmarshalMember, hf]

theorem loadConfig_code (b : Body) (r : Redirector) :
    ((loadConfig b r).1).code = r.code := by
  cases b with
  | malformed => rfl
  | wellFormed j =>
    cases j with
    | obj members => exact foldl_unmarshalMember_code members (r, false)
    | null => rfl
    | bool b => rfl
    | num n => rfl
    | str s => rfl
    | arr elems => rfl

theorem foldl_unmarshalMember_skip (members : List (String × Json))
    (h : ∀ kv ∈ members, fieldMatches kv.1 = false) :
    ∀ acc : Redirector × Bool, members.foldl unmarshalMember acc = acc := by
  induction members with
  | nil => intro acc; rfl
  | cons hd tl ih =>
    intro acc
    have hstep : unmarshalMember acc hd = acc := by
      simp [unmarshalMember, h hd (List.mem_cons_self hd tl)]
    show tl.foldl unmarshalMember (unmarshalMember acc hd) = acc
    rw [hstep]
    exact ih (fun kv hkv => h kv (List.mem_cons_of_mem hd hkv)) acc

/-- Claim C1: `LoadMerge` (the `/_config` PUT path, `LoadConfig` in code) has
merge semantics, not replace semantics: for every table state and every
well-formed document `{"redirections": {...}}` (string-valued members with
distinct names), the load succeeds, every key/value pair of the document is
present in the table afterwards (a same-named existing key is overwritten
with the document's value), and every prior entry whose key does not occur
in the document is still present with its old value. -/
theorem C1_loadMerge_merges
    (r : Redirector) (pairs : List (String × String))
    (hnd : (pairs.map Prod.fst).Nodup) :
    (loadConfig (Body.wellFormed (Json.obj
        [("redirections", Json.obj (strMembers pairs))])) r).2 = false
    ∧ (∀ k v, (k, v) ∈ pairs →
        goMapFind? k (loadConfig (Body.wellFormed (Json.obj
          [("redirections", Json.obj (strMembers pairs))])) r).1.Redirections
          = some v)
    ∧ (∀ k, k ∉ pairs.map Prod.fst →
        goMapFind? k (loadConfig (Body.wellFormed (Json.obj
          [("redirections", Json.obj (strMembers pairs))])) r).1.Redirections
          = goMapFind? k r.Redirections) := by
  rw [loadConfig_strDoc]
  refine ⟨rfl, ?_, ?_⟩
  · intro k v hmem
    exact find?_mergePairs_mem pairs r.Redirections.entriesD k v hnd hmem
  · intro k hk
    exact find?_mergePairs_not_mem pairs r.Redirections.entriesD k hk

/-- Witness for C1: merging `{"redirections": {"/a": "/x"}}` into a table
holding `/b -> /y` succeeds and yields both entries. -/
theorem C1_loadMerge_merges_witness :
    (([("/a", "/x")] : List (String × String)).map Prod.fst).Nodup
    ∧ (loadConfig (Body.wellFormed (Json.obj
        [("redirections", Json.obj (strMembers [("/a", "/x")]))]))
        { code := 302, Redirections := GoMap.alloc [("/b", "/y")] }).2 = false
    ∧ goMapFind? "/a" (loadConfig (Body.wellFormed (Json.obj
        [("redirections", Json.obj (strMembers [("/a", "/x")]))]))
        { code := 302, Redirections := GoMap.alloc [("/b", "/y")] }).1.Redirections
        = some "/x"
    ∧ goMapFind? "/b" (loadConfig (Body.wellFormed (Json.obj
        [("redirections", Json.obj (strMembers [("/a", "/x")]))]))
        { code := 302, Redirections := GoMap.alloc [("/b", "/y")] }).1.Redirections
        = some "/y" :=
  ⟨by decide,
   (C1_loadMerge_merges
      { code := 302, Redirections := GoMap.alloc [("/b", "/y")] }
      [("/a", "/x")] (by decide)).1,
   (C1_loadMerge_merges
      { code := 302, Redirections := GoMap.alloc [("/b", "/y")] }
      [("/a", "/x")] (by decide)).2.1 "/a" "/x" (by decide),
   (C1_loadMerge_merges
      { code := 302, Redirections := GoMap.alloc [("/b", "/y")] }
      [("/a", "/x")] (by decide)).2.2 "/b" (by decide)⟩

/-- Claim C5 counterexample: the nil-map state is reachable (loading
`{"redirections": null}` succeeds and leaves the map nil), and there a local
data-path `Put` panics on the nil-map assignment and stores nothing, so the
follow-up lookup misses instead of returning the destination. -/
theorem C5_counterexample :
    loadConfig (Body.wellFormed (Json.obj [("redirections", Json.null)]))
      NewRedirector = ({ code := 302, Redirections := GoMap.nilMap }, false)
    ∧ putOp "/a" "/x" { code := 302, Redirections := GoMap.nilMap } = none
    ∧ serveHTTP
        { method := "PUT", path := "/a", xRealIp := some "127.0.0.1",
          remoteAddr := "127.0.0.1:1", body := "/x" }
        { code := 302, Redirections := GoMap.nilMap }
        = ({ code := 302, Redirections := GoMap.nilMap }, Response.panicked)
    ∧ goMapFind? "/a" (serveHTTP
        { method := "PUT", path := "/a", xRealIp := some "127.0.0.1",
          remoteAddr := "127.0.0.1:1", body := "/x" }
        { code := 302, Redirections := GoMap.nilMap }).1.Redirections = none :=
  ⟨rfl, rfl, rfl, rfl⟩

/-- Claim C5 amended: at every state whose map is allocated — every state not
produced by loading `{"redirections": null}` — `Put(P, D)` succeeds and a
lookup of P returns exactly D, the corresponding GET redirects to D with the
configured status code, after a subsequent `Delete(P)` the lookup reports
not-found and the GET yields 404, and `Delete(P)` on a table not containing
P is a no-op, not an error.  At the nil-map state, `Put` panics (assignment
to entry in nil map) and stores nothing. -/
theorem C5_put_lookup_delete
    (c : Nat) (m : List (String × String)) (p d : String)
    (hnd : (m.map Prod.fst).Nodup) :
    putOp p d { code := c, Redirections := GoMap.alloc m }
      = some { code := c, Redirections := GoMap.alloc (mapPut p d m) }
    ∧ goMapFind? p (GoMap.alloc (mapPut p d m)) = some d
    ∧ getOp p { code := c, Redirections := GoMap.alloc (mapPut p d m) }
        = Response.redirect d c
    ∧ goMapFind? p (deleteOp p { code := c,
                                 Redirections := GoMap.alloc (mapPut p d m) }).Redirections = none
    ∧ getOp p (deleteOp p { code := c,
                            Redirections := GoMap.alloc (mapPut p d m) }) = Response.notFound
    ∧ (find? p m = none →
        deleteOp p { code := c, Redirections := GoMap.alloc m }
          = { code := c, Redirections := GoMap.alloc m })
    ∧ putOp p d { code := c, Redirections := GoMap.nilMap } = none := by
  have h3 : find? p (mapDelete p (mapPut p d m)) = none :=
    find?_mapDelete_self p (mapPut p d m) (keys_nodup_mapPut p d m hnd)
  refine ⟨rfl, find?_mapPut_self p d m, ?_, h3, ?_, ?_, rfl⟩
  · simp [getOp, goMapFind?, GoMap.entriesD, find?_mapPut_self]
  · simp [getOp, deleteOp, goMapDelete, goMapFind?, GoMap.entriesD, h3]
  · intro hnone
    show ({ code := c, Redirections := GoMap.alloc (mapDelete p m) } : Redirector)
      = { code := c, Redirections := GoMap.alloc m }
    rw [mapDelete_eq_self p m hnone]

/-- Witness for C5 (amended) at P = "/a", D = "/x" over an allocated table
holding only `/b -> /y`. -/
theorem C5_put_lookup_delete_witness :
    ((([("/b", "/y")] : List (String × String)).map Prod.fst).Nodup)
    ∧ find? "/a" ([("/b", "/y")] : List (String × String)) = none
    ∧ putOp "/a" "/x" { code := 302, Redirections := GoMap.alloc [("/b", "/y")] }
        = some { code := 302,
                 Redirections := GoMap.alloc (mapPut "/a" "/x" [("/b", "/y")]) }
    ∧ goMapFind? "/a" (GoMap.alloc (mapPut "/a" "/x" [("/b", "/y")])) = some "/x"
    ∧ getOp "/a" { code := 302,
                   Redirections := GoMap.alloc (mapPut "/a" "/x" [("/b", "/y")]) }
        = Response.redirect "/x" 302
    ∧ goMapFind? "/a" (deleteOp "/a" { code := 302,
                                       Redirections := GoMap.alloc (mapPut "/a" "/x" [("/b", "/y")]) }).Redirections
        = none
    ∧ getOp "/a" (deleteOp "/a" { code := 302,
                                  Redirections := GoMap.alloc (mapPut "/a" "/x" [("/b", "/y")]) })
        = Response.notFound
    ∧ deleteOp "/a" { code := 302, Redirections := GoMap.alloc [("/b", "/y")] }
        = { code := 302, Redirections := GoMap.alloc [("/b", "/y")] } :=
  ⟨by decide, by decide,
   (C5_put_lookup_delete 302 [("/b", "/y")] "/a" "/x" (by decide)).1,
   (C5_put_lookup_delete 302 [("/b", "/y")] "/a" "/x" (by decide)).2.1,
   (C5_put_lookup_delete 302 [("/b", "/y")] "/a" "/x" (by decide)).2.2.1,
   (C5_put_lookup_delete 302 [("/b", "/y")] "/a" "/x" (by decide)).2.2.2.1,
   (C5_put_lookup_delete 302 [("/b", "/y")] "/a" "/x" (by decide)).2.2.2.2.1,
   (C5_put_lookup_delete 302 [("/b", "/y")] "/a" "/x" (by decide)).2.2.2.2.2.1
     (by decide)⟩

/-- Claim C6 counterexample: at the reachable nil-map state (loading
`{"redirections": null}` succeeds and leaves the map nil), `MarshalIndent`
emits `{"redirections": null}` — not an object of source/destination
members — so the claimed serialized shape fails at that table state. -/
theorem C6_counterexample :
    marshalConfig { code := 302, Redirections := GoMap.nilMap }
      = Json.obj [("redirections", Json.null)]
    ∧ Json.null ≠ Json.obj (strMembers [])
    ∧ loadConfig (Body.wellFormed (Json.obj [("redirections", Json.null)]))
        NewRedirector = ({ code := 302, Redirections := GoMap.nilMap }, false) :=
  ⟨rfl, fun h => Json.noConfusion h, rfl⟩

/-- Claim C6 amended: for every table state, feeding the output of Serialize
(the /_config GET body) to LoadMerge on a fresh empty table succeeds and
yields a table whose entries are exactly the original entries (round-trip,
nil-map state included); the serialized document has the shape
`{"redirections": {source: destination, ...}}` with string values at every
state whose map is allocated, while the nil-map state serializes as
`{"redirections": null}`. -/
theorem C6_serialize_roundtrip (r : Redirector) :
    (loadConfig (Body.wellFormed (marshalConfig r)) NewRedirector).2 = false
    ∧ (∀ k, goMapFind? k (loadConfig (Body.wellFormed (marshalConfig r))
          NewRedirector).1.Redirections = goMapFind? k r.Redirections)
    ∧ (∀ m, r.Redirections = GoMap.alloc m →
        marshalConfig r = Json.obj [("redirections",
          Json.obj (strMembers ((sortedKeys m).map
            (fun k => (k, (find? k m).getD "")))))])
    ∧ (r.Redirections = GoMap.nilMap →
        marshalConfig r = Json.obj [("redirections", Json.null)]) := by
  obtain ⟨c, g⟩ := r
  cases g with
  | nilMap =>
    refine ⟨rfl, fun k => rfl, ?_, fun _ => rfl⟩
    intro m hm
    exact GoMap.noConfusion hm
  | alloc m =>
    have hshape : marshalConfig { code := c, Redirections := GoMap.alloc m }
        = Json.obj [("redirections",
          Json.obj (strMembers ((sortedKeys m).map
            (fun k => (k, (find? k m).getD "")))))] := by
      simp [marshalConfig, marshalRedirections, strMembers, List.map_map,
        Function.comp]
    have hload := loadConfig_strDoc
      ((sortedKeys m).map (fun k => (k, (find? k m).getD ""))) NewRedirector
    have hkeys : (((sortedKeys m).map
        (fun k => (k, (find? k m).getD ""))).map Prod.fst) = sortedKeys m := by
      rw [List.map_map]
      have hcomp : (Prod.fst ∘ fun k : String => (k, (find? k m).getD ""))
          = id := rfl
      rw [hcomp, List.map_id]
    have hmemS : ∀ k, k ∈ sortedKeys m ↔ k ∈ m.map Prod.fst := by
      intro k
      unfold sortedKeys
      rw [List.Perm.mem_iff (List.mergeSort_perm _ _), List.mem_dedup]
    have hnd : ((((sortedKeys m).map
        (fun k => (k, (find? k m).getD ""))).map Prod.fst)).Nodup := by
      rw [hkeys]
      exact ((List.mergeSort_perm _ _).nodup_iff).mpr (List.nodup_dedup _)
    refine ⟨?_, ?_, ?_, ?_⟩
    · rw [hshape, hload]
    · intro k
      rw [hshape, hload]
      show find? k (mergePairs ((sortedKeys m).map
        (fun k => (k, (find? k m).getD ""))) []) = find? k m
      by_cases hk : k ∈ m.map Prod.fst
      · cases hfind : find? k m with
        | none => exact absurd hk (by rw [← find?_eq_none_iff]; exact hfind)
        | some v =>
          have hmem : (k, (find? k m).getD "")
              ∈ (sortedKeys m).map (fun k => (k, (find? k m).getD "")) :=
            List.mem_map.mpr ⟨k, (hmemS k).mpr hk, rfl⟩
          have := find?_mergePairs_mem _ [] k ((find? k m).getD "") hnd hmem
          rw [this, hfind]
          rfl
      · have hk' : k ∉ ((sortedKeys m).map
            (fun k => (k, (find? k m).getD ""))).map Prod.fst := by
          rw [hkeys]
          exact fun hmem => hk ((hmemS k).mp hmem)
        rw [find?_mergePairs_not_mem _ [] k hk']
        rw [(find?_eq_none_iff k m).mpr hk]
        rfl
    · intro m' hm'
      have hmm : m = m' := by
        injection hm'
      subst hmm
      exact hshape
    · intro hm
      exact GoMap.noConfusion hm

/-- Witness for C6 (amended) at the allocated table `/old -> /new`. -/
theorem C6_serialize_roundtrip_witness :
    ({ code := 302, Redirections := GoMap.alloc [("/old", "/new")] } :
        Redirector).Redirections = GoMap.alloc [("/old", "/new")]
    ∧ (loadConfig (Body.wellFormed (marshalConfig
        { code := 302, Redirections := GoMap.alloc [("/old", "/new")] }))
        NewRedirector).2 = false
    ∧ goMapFind? "/old" (loadConfig (Body.wellFormed (marshalConfig
        { code := 302, Redirections := GoMap.alloc [("/old", "/new")] }))
        NewRedirector).1.Redirections = some "/new"
    ∧ marshalConfig { code := 302, Redirections := GoMap.alloc [("/old", "/new")] }
        = Json.obj [("redirections",
            Json.obj (strMembers ((sortedKeys [("/old", "/new")]).map
              (fun k => (k, (find? k [("/old", "/new")]).getD "")))))] :=
  ⟨rfl,
   (C6_serialize_roundtrip
      { code := 302, Redirections := GoMap.alloc [("/old", "/new")] }).1,
   Eq.trans
     ((C6_serialize_roundtrip
        { code := 302, Redirections := GoMap.alloc [("/old", "/new")] }).2.1
       "/old")
     rfl,
   (C6_serialize_roundtrip
      { code := 302, Redirections := GoMap.alloc [("/old", "/new")] }).2.2.1
     [("/old", "/new")] rfl⟩

theorem setConfig_code (b : Body) (r : Redirector) :
    ((setConfig b r).1).code = r.code := by
  cases hres : (loadConfig b r).2 <;>
    simp [setConfig, hres, loadConfig_code b r]

theorem putOp_code (p d : String) (r : Redirector) :
    (((putOp p d r).getD r)).code = r.code := by
  unfold putOp
  cases r.Redirections <;> rfl

/-- Claim C7: the redirect status code is set once at startup and is left
unchanged by every exposed operation — Put (also when it panics on the nil
map), Delete, LoadMerge, Clear and both HTTP handlers; and Clear empties the
entries mapping entirely (every lookup reports not-found afterwards) while
leaving the code as it was. -/
theorem C7_code_frame
    (r : Redirector) (p d k : String) (b : Body)
    (req : Request) (creq : ConfigRequest) :
    (((putOp p d r).getD r)).code = r.code
    ∧ (deleteOp p r).code = r.code
    ∧ ((loadConfig b r).1).code = r.code
    ∧ (clearOp r).code = r.code
    ∧ goMapFind? k (clearOp r).Redirections = none
    ∧ ((serveHTTP req r).1).code = r.code
    ∧ ((configHandler creq r).1).code = r.code := by
  refine ⟨putOp_code p d r, rfl, loadConfig_code b r, rfl, rfl, ?_, ?_⟩
  · unfold serveHTTP
    split_ifs <;> try rfl
    rcases hp : putOp req.path req.body r with _ | u
    · simp [hp]
    · have hc := putOp_code req.path req.body r
      rw [hp] at hc
      simp only [hp]
      exact hc
  · unfold configHandler
    split_ifs <;> first | rfl | exact setConfig_code creq.body r

/-- Claim C2: for every request invoking a gated operation whose resolved
caller address — X-Real-Ip if present, else the transport remote address —
is not localhost/127.0.0.1, the response is 401 Unauthorized and the table's
entries are exactly what they were: data-path PUT and DELETE, and every
method on /_config (GET, PUT, DELETE included), are gated this way. -/
theorem C2_nonlocal_gets_401
    (req : Request) (creq : ConfigRequest) (r : Redirector)
    (hreq : isLocalCaller req.xRealIp req.remoteAddr = false)
    (hcreq : isLocalCaller creq.xRealIp creq.remoteAddr = false) :
    ((req.method = "PUT" ∨ req.method = "DELETE") →
      serveHTTP req r = (r, Response.httpError "Unauthorized" 401))
    ∧ configHandler creq r = (r, Response.httpError "Unauthorized" 401) := by
  constructor
  · rintro (hm | hm) <;> simp [serveHTTP, hm, hreq]
  · simp [configHandler, hcreq]

/-- Witness for C2: a PUT relayed for 10.0.0.1 and a /_config DELETE from
192.168.0.1 are both refused with 401 and leave the table untouched. -/
theorem C2_nonlocal_gets_401_witness :
    isLocalCaller (some "10.0.0.1") "10.0.0.1:9999" = false
    ∧ isLocalCaller none "192.168.0.1:33" = false
    ∧ serveHTTP { method := "PUT", path := "/a", xRealIp := some "10.0.0.1",
                  remoteAddr := "10.0.0.1:9999", body := "/x" } NewRedirector
        = (NewRedirector, Response.httpError "Unauthorized" 401)
    ∧ configHandler { method := "DELETE", xRealIp := none,
                      remoteAddr := "192.168.0.1:33", body := Body.malformed } NewRedirector
        = (NewRedirector, Response.httpError "Unauthorized" 401) :=
  ⟨by decide, by decide,
   (C2_nonlocal_gets_401
      { method := "PUT", path := "/a", xRealIp := some "10.0.0.1",
        remoteAddr := "10.0.0.1:9999", body := "/x" }
      { method := "DELETE", xRealIp := none,
        remoteAddr := "192.168.0.1:33", body := Body.malformed }
      NewRedirector (by decide) (by decide)).1 (Or.inl rfl),
   (C2_nonlocal_gets_401
      { method := "PUT", path := "/a", xRealIp := some "10.0.0.1",
        remoteAddr := "10.0.0.1:9999", body := "/x" }
      { method := "DELETE", xRealIp := none,
        remoteAddr := "192.168.0.1:33", body := Body.malformed }
      NewRedirector (by decide) (by decide)).2⟩

/-- Claim C9: the local-only gate compares only the portion of the resolved
address before the first colon: an X-Real-Ip of the form
`localhost:<anything>` or `127.0.0.1:<anything>` is treated as local, and
such a data-path PUT is authorized and applied (at any allocated-map
state). -/
theorem C9_gate_ignores_port (rest remote p d : String) (c : Nat)
    (m : List (String × String)) :
    isLocalCaller (some ("localhost:" ++ rest)) remote = true
    ∧ isLocalCaller (some ("127.0.0.1:" ++ rest)) remote = true
    ∧ serveHTTP { method := "PUT", path := p,
                  xRealIp := some ("localhost:" ++ rest), remoteAddr := remote,
                  body := d } { code := c, Redirections := GoMap.alloc m }
        = ({ code := c, Redirections := GoMap.alloc (mapPut p d m) },
           Response.ok "") :=
  ⟨rfl, rfl, rfl⟩

/-- Claim C10: an X-Real-Ip header that is present but empty is treated as
absent — the resolved caller address is the transport remote address. -/
theorem C10_empty_header_ignored (remote : String) :
    realAddr (some "") remote = remote ∧ realAddr none remote = remote :=
  ⟨rfl, rfl⟩

/-- Claim C8 counterexample: a POST to /_config from a non-local caller is
answered 401 Unauthorized, not 405: the /_config method switch (including
its 405 default) runs inside the local-only gate. -/
theorem C8_counterexample :
    configHandler { method := "POST", xRealIp := some "10.0.0.1",
                    remoteAddr := "10.0.0.1:7", body := Body.malformed } NewRedirector
      = (NewRedirector, Response.httpError "Unauthorized" 401)
    ∧ Response.httpError "Unauthorized" 401
      ≠ Response.httpError "Method not allowed" 405 := by
  refine ⟨rfl, ?_⟩
  intro h
  injection h with h1 h2
  exact absurd h2 (by decide)

/-- Claim C8 amended: a request whose method is not GET, PUT or DELETE gets
405 Method Not Allowed with the table unchanged on data paths for every
caller address; on /_config the 405 is reached only by local callers — a
non-local caller gets 401 instead (table unchanged either way). -/
theorem C8_bad_method
    (req : Request) (creq : ConfigRequest) (r : Redirector)
    (h1 : req.method ≠ "GET") (h2 : req.method ≠ "PUT")
    (h3 : req.method ≠ "DELETE")
    (h4 : creq.method ≠ "GET") (h5 : creq.method ≠ "PUT")
    (h6 : creq.method ≠ "DELETE") :
    serveHTTP req r = (r, Response.httpError "Method not allowed" 405)
    ∧ (isLocalCaller creq.xRealIp creq.remoteAddr = true →
        configHandler creq r = (r, Response.httpError "Method not allowed" 405))
    ∧ (isLocalCaller creq.xRealIp creq.remoteAddr = false →
        configHandler creq r = (r, Response.httpError "Unauthorized" 401)) := by
  refine ⟨?_, ?_, ?_⟩
  · simp [serveHTTP, h1, h2, h3]
  · intro hloc
    simp [configHandler, hloc, h4, h5, h6]
  · intro hloc
    simp [configHandler, hloc]

/-- Witness for C8 (amended): POST requests — 405 on a data path from a
remote caller, 405 on /_config from a local caller. -/
theorem C8_bad_method_witness :
    (("POST" : String) ≠ "GET" ∧ ("POST" : String) ≠ "PUT"
      ∧ ("POST" : String) ≠ "DELETE")
    ∧ serveHTTP { method := "POST", path := "/a", xRealIp := some "10.0.0.1",
                  remoteAddr := "10.0.0.1:7", body := "" } NewRedirector
        = (NewRedirector, Response.httpError "Method not allowed" 405)
    ∧ configHandler { method := "POST", xRealIp := some "localhost",
                      remoteAddr := "z", body := Body.malformed } NewRedirector
        = (NewRedirector, Response.httpError "Method not allowed" 405) :=
  ⟨⟨by decide, by decide, by decide⟩,
   (C8_bad_method
      { method := "POST", path := "/a", xRealIp := some "10.0.0.1",
        remoteAddr := "10.0.0.1:7", body := "" }
      { method := "POST", xRealIp := some "localhost",
        remoteAddr := "z", body := Body.malformed }
      NewRedirector (by decide) (by decide) (by decide) (by decide)
      (by decide) (by decide)).1,
   (C8_bad_method
      { method := "POST", path := "/a", xRealIp := some "10.0.0.1",
        remoteAddr := "10.0.0.1:7", body := "" }
      { method := "POST", xRealIp := some "localhost",
        remoteAddr := "z", body := Body.malformed }
      NewRedirector (by decide) (by decide) (by decide) (by decide)
      (by decide) (by decide)).2.1 (by decide)⟩

/-- Claim C3 counterexample: the /_config PUT body
`{"redirections": {"/a": "/x", "/b": 5}}` is valid JSON that `LoadConfig`
rejects (500), yet it changes the table: `/a -> /x` is merged and `/b` is
stored as the zero value `""` — the failed merge does contribute. -/
theorem C3_counterexample :
    (configHandler
        { method := "PUT", xRealIp := some "127.0.0.1",
          remoteAddr := "127.0.0.1:1",
          body := Body.wellFormed (Json.obj
            [("redirections", Json.obj
              [("/a", Json.str "/x"), ("/b", Json.num 5)])]) }
        NewRedirector).2 = Response.httpError "Error decoding JSON config" 500
    ∧ goMapFind? "/a" (configHandler
        { method := "PUT", xRealIp := some "127.0.0.1",
          remoteAddr := "127.0.0.1:1",
          body := Body.wellFormed (Json.obj
            [("redirections", Json.obj
              [("/a", Json.str "/x"), ("/b", Json.num 5)])]) }
        NewRedirector).1.Redirections = some "/x"
    ∧ goMapFind? "/b" (configHandler
        { method := "PUT", xRealIp := some "127.0.0.1",
          remoteAddr := "127.0.0.1:1",
          body := Body.wellFormed (Json.obj
            [("redirections", Json.obj
              [("/a", Json.str "/x"), ("/b", Json.num 5)])]) }
        NewRedirector).1.Redirections = some ""
    ∧ goMapFind? "/a" NewRedirector.Redirections = none
    ∧ goMapFind? "/b" NewRedirector.Redirections = none :=
  ⟨rfl, rfl, rfl, rfl, rfl⟩

/-- Claim C3 amended: for every table state, a /_config PUT from a local
caller whose body is not syntactically valid JSON is answered 500 with
descriptive error text and the table's entries are exactly what they were
(rejection at the JSON-syntax stage contributes nothing); a body that is
valid JSON but fails decoding also gets 500 but may leave a partial merge
behind. -/
theorem C3_malformed_put_unchanged
    (creq : ConfigRequest) (r : Redirector)
    (hloc : isLocalCaller creq.xRealIp creq.remoteAddr = true)
    (hm : creq.method = "PUT") (hb : creq.body = Body.malformed) :
    configHandler creq r
      = (r, Response.httpError "Error decoding JSON config" 500) := by
  simp [configHandler, hloc, hm, hb, setConfig, loadConfig]

/-- Witness for C3 (amended): a malformed local /_config PUT gets 500 and
leaves the table as it was. -/
theorem C3_malformed_put_unchanged_witness :
    isLocalCaller (some "localhost:8080") "z" = true
    ∧ configHandler
        { method := "PUT", xRealIp := some "localhost:8080",
          remoteAddr := "z", body := Body.malformed }
        { code := 302, Redirections := GoMap.alloc [("/b", "/y")] }
        = ({ code := 302, Redirections := GoMap.alloc [("/b", "/y")] },
           Response.httpError "Error decoding JSON config" 500) :=
  ⟨by decide,
   C3_malformed_put_unchanged
     { method := "PUT", xRealIp := some "localhost:8080",
       remoteAddr := "z", body := Body.malformed }
     { code := 302, Redirections := GoMap.alloc [("/b", "/y")] }
     (by decide) rfl rfl⟩

/-- Claim C4 counterexample: `{"redirections": 5}` is valid JSON whose
`redirections` field is not an object, yet `LoadConfig` fails (Go saves an
`UnmarshalTypeError`) instead of reporting success; and
`{"redirections": null}` reports success with zero redirections but empties
the table instead of leaving its entries as they were. -/
theorem C4_counterexample :
    (loadConfig (Body.wellFormed (Json.obj [("redirections", Json.num 5)]))
      NewRedirector).2 = true
    ∧ loadConfig (Body.wellFormed (Json.obj [("redirections", Json.null)]))
        { code := 302, Redirections := GoMap.alloc [("/b", "/y")] }
        = ({ code := 302, Redirections := GoMap.nilMap }, false)
    ∧ goMapFind? "/b" (GoMap.alloc [("/b", "/y")]) = some "/y" :=
  ⟨rfl, rfl, rfl⟩

/-- Claim C4 amended: a valid-JSON object with no member matching
`redirections` loads successfully with zero redirections merged and the
table's entries unchanged (so at initial load it yields an empty table, not
a fatal error); but a `redirections` member that is present and neither an
object nor `null` makes `LoadConfig` fail (entries untouched), `null`
succeeds while setting the map to the nil map (emptying the table), and a
non-object, non-null top-level document fails too. -/
theorem C4_absent_or_nonobject
    (r : Redirector) (members : List (String × Json)) (j : Json)
    (habs : ∀ kv ∈ members, fieldMatches kv.1 = false) :
    loadConfig (Body.wellFormed (Json.obj members)) r = (r, false)
    ∧ loadConfig (Body.wellFormed (Json.obj [("redirections", Json.null)])) r
        = ({ r with Redirections := GoMap.nilMap }, false)
    ∧ ((∀ ms, j ≠ Json.obj ms) → j ≠ Json.null →
        loadConfig (Body.wellFormed (Json.obj [("redirections", j)])) r
          = (r, true))
    ∧ ((∀ ms, j ≠ Json.obj ms) → j ≠ Json.null →
        loadConfig (Body.wellFormed j) r = (r, true)) := by
  refine ⟨foldl_unmarshalMember_skip members habs (r, false), rfl, ?_, ?_⟩
  · intro hobj hnull
    cases j with
    | null => exact absurd rfl hnull
    | obj ms => exact absurd rfl (hobj ms)
    | bool b => rfl
    | num n => rfl
    | str s => rfl
    | arr elems => rfl
  · intro hobj hnull
    cases j with
    | null => exact absurd rfl hnull
    | obj ms => exact absurd rfl (hobj ms)
    | bool b => rfl
    | num n => rfl
    | str s => rfl
    | arr elems => rfl

/-- Witness for C4 (amended): `{"other": 1}` loads successfully and leaves
the empty table empty; `{"redirections": true}` fails. -/
theorem C4_absent_or_nonobject_witness :
    (∀ kv ∈ ([("other", Json.num 1)] : List (String × Json)),
      fieldMatches kv.1 = false)
    ∧ loadConfig (Body.wellFormed (Json.obj [("other", Json.num 1)]))
        NewRedirector = (NewRedirector, false)
    ∧ loadConfig (Body.wellFormed (Json.obj [("redirections", Json.bool true)]))
        NewRedirector = (NewRedirector, true) :=
  ⟨by decide,
   (C4_absent_or_nonobject NewRedirector [("other", Json.num 1)]
      (Json.bool true) (by decide)).1,
   (C4_absent_or_nonobject NewRedirector [("other", Json.num 1)]
      (Json.bool true) (by decide)).2.2.1
     (fun ms h => Json.noConfusion h) (fun h => Json.noConfusion h)⟩
